import Mathlib

/-!
Verification of the tool-registry / enablement-gate and response-shaping layer
of an MCP server for a project-management platform.

The definitions below are a shallow embedding of the TypeScript sources:
  * `src/tools.ts`  — category map, default-enabled list, `configureAllTools`
    (the allow-list variant driven by the `ADO_MCP_ENABLED_TOOLS` override string);
  * `src/tools/repos.ts` — DTO projections, pagination slicing, branch listing,
    the pull-request status translator, and the composite pull-request fetch;
  * `src/tools/search.ts` — the `SEARCH_TOOLS` table.

JavaScript strings are modelled by Lean `String` (operations are defined over
the underlying character list so that every definition reduces in the kernel);
`undefined`/optional values by `Option`; thrown exceptions by `Except String`.
-/

/- ### String utilities (kernel-computable models of the JS string operations) -/

/-- Model of the JS whitespace test used by `String.prototype.trim` (ASCII part). -/
def isJsWhitespace (c : Char) : Bool :=
  c = ' ' || c = '\t' || c = '\n' || c = '\r'

/-- Model of `String.prototype.trim`: drop whitespace from both ends. -/
def trimString (s : String) : String :=
  ⟨((s.data.dropWhile isJsWhitespace).reverse.dropWhile isJsWhitespace).reverse⟩

/-- Helper for `splitOnComma`, structural on the character list. -/
def splitOnCommaAux : List Char → List Char → List (List Char)
  | [], acc => [acc.reverse]
  | c :: rest, acc =>
    if c = ',' then acc.reverse :: splitOnCommaAux rest []
    else splitOnCommaAux rest (c :: acc)

/-- Model of the JS `s.split(",")`: on the empty string it yields `[""]`. -/
def splitOnComma (s : String) : List String :=
  (splitOnCommaAux s.data []).map (fun l => ⟨l⟩)

/-- Model of `String.prototype.startsWith`. -/
def strStarts (s pre : String) : Bool :=
  pre.data.isPrefixOf s.data

/-- Drop the first `n` characters of a string. -/
def strDrop (s : String) (n : Nat) : String :=
  ⟨s.data.drop n⟩

/-- ASCII model of `Char` lowering used by `String.prototype.toLowerCase`. -/
def toLowerAscii (c : Char) : Char :=
  if 'A' ≤ c ∧ c ≤ 'Z' then Char.ofNat (c.toNat + 32) else c

/-- ASCII model of `String.prototype.toLowerCase`. -/
def strToLower (s : String) : String :=
  ⟨s.data.map toLowerAscii⟩

/-- Substring test over character lists, modelling `String.prototype.includes`. -/
def listContainsSub : List Char → List Char → Bool
  | hay, needle =>
    if needle.isPrefixOf hay then true
    else
      match hay with
      | [] => false
      | _ :: t => listContainsSub t needle

/- ### Enablement gate (`src/tools.ts`, allow-list variant)

The gate is embedded generically over the category table (an association list
from category-name token to that category's tool names, i.e. the
`TOOLS_CATEGORY_MAP` with its `Object.values`) and the default-enabled list,
exactly following the algorithm of `configureAllTools`. -/

/-- Model of `TOOLS_CATEGORY_MAP.get tok`. -/
def lookupCategory (cats : List (String × List String)) (tok : String) : Option (List String) :=
  (cats.find? (fun c => c.fst = tok)).map Prod.snd

/-- All tool names in all categories: the initial content of the disabled set. -/
def allCatalogTools (cats : List (String × List String)) : List String :=
  (cats.map Prod.snd).flatten

/-- Model of the per-token resolution in `configureAllTools`: a trimmed token
that names a category resolves to that category's tool names, any other token
resolves to itself as a literal tool name. -/
def resolveToken (cats : List (String × List String)) (tok : String) : List String :=
  match lookupCategory cats tok with
  | some tools => tools
  | none => [tok]

/-- The trimmed tokens of the override string:
`(overrideString || "").split(",").map(t => t.trim())`. -/
def overrideTokens (s : String) : List String :=
  (splitOnComma s).map trimString

/-- The names deleted from the disabled set:
`DEFAULT_ENABLED_TOOLS.concat( tokens .map(resolve) .flatMap(id) )`. -/
def enableList (cats : List (String × List String)) (defaults : List String) (s : String) : List String :=
  defaults ++ ((overrideTokens s).map (resolveToken cats)).flatten

/-- The disabled set computed by `configureAllTools`: every catalog tool name,
minus everything in `enableList` (set semantics of `Set.delete`). -/
def disabledSet (cats : List (String × List String)) (defaults : List String) (s : String) : List String :=
  (allCatalogTools cats).filter (fun t => decide (t ∉ enableList cats defaults s))

/-- A tool is registered when some family owns it and it is not in the
disabled set (`if (!disabledTools.has(name)) server.tool(...)`). -/
def isRegistered (cats : List (String × List String)) (defaults : List String) (s t : String) : Prop :=
  t ∈ allCatalogTools cats ∧ t ∉ disabledSet cats defaults s

instance (cats : List (String × List String)) (defaults : List String) (s t : String) :
    Decidable (isRegistered cats defaults s t) :=
  inferInstanceAs (Decidable (t ∈ allCatalogTools cats ∧ t ∉ disabledSet cats defaults s))

/-- Spec-side description: the override tokens that do not name a category
(the literally-named tools). -/
def literalToolTokens (cats : List (String × List String)) (s : String) : List String :=
  (overrideTokens s).filter (fun tok => (lookupCategory cats tok).isNone)

/-- Spec-side description: all member tools of every category named in the
override string. -/
def categoryTokenMembers (cats : List (String × List String)) (s : String) : List String :=
  ((overrideTokens s).filterMap (lookupCategory cats)).flatten

/-- Spec-side description of the enabled union: default-enabled tools,
literally-named tools, and members of named categories. -/
def specEnabledUnion (cats : List (String × List String)) (defaults : List String) (s : String) : List String :=
  defaults ++ literalToolTokens cats s ++ categoryTokenMembers cats s

/- Concrete catalog.  `REPO_TOOLS` and `SEARCH_TOOLS` are transcribed from
`src/tools/repos.ts` and `src/tools/search.ts` (`Object.values` of the tables). -/

/-- Modelled from the spec: the core-family table `CORE_TOOLS` lives in
`src/tools/core.ts`, which is not among the provided sources; `src/tools.ts`
references exactly the members `list_azure_devops_projects` and
`get_azure_devops_identity_ids`, and per the spec's catalog description each
table maps a logical tool name to its machine-readable identifier. -/
def CORE_TOOLS : List String :=
  ["list_azure_devops_projects", "get_azure_devops_identity_ids"]

/-- The `SEARCH_TOOLS` table of `src/tools/search.ts`. -/
def SEARCH_TOOLS : List String :=
  ["search_azure_devops_code", "search_azure_devops_wiki", "search_azure_devops_workitem"]

/-- The `REPO_TOOLS` table of `src/tools/repos.ts` (the registered values). -/
def REPO_TOOLS : List String :=
  ["get_azure_devops_repositories",
   "get_azure_devops_pull_request_by_id",
   "get_azure_devops_changes_by_commit",
   "get_azure_devops_item_content_by_commit",
   "get_azure_devops_content_by_objectid",
   "list_azure_devops_pull_request_threads",
   "list_azure_devops_pull_request_comments_by_thread",
   "repo_list_pull_requests_by_repo",
   "repo_list_pull_requests_by_project",
   "repo_list_branches_by_repo",
   "repo_list_my_branches_by_repo",
   "repo_get_branch_by_name",
   "repo_create_pull_request",
   "repo_update_pull_request_status",
   "repo_update_pull_request_reviewers",
   "repo_reply_to_comment",
   "repo_resolve_comment",
   "repo_search_commits",
   "repo_list_pull_requests_by_commits"]

/-- The category map of `src/tools.ts`, restricted to the categories whose
tables are among the provided sources (plus the spec-modelled `CORE_TOOLS`);
the work/build/workitem/release/wiki/testplan tables are not in the sources.
The enablement status of every tool named in the claims is independent of
those tables, since the gate treats each tool name separately. -/
def TOOLS_CATEGORY_MAP : List (String × List String) :=
  [("category_core", CORE_TOOLS),
   ("category_repo", REPO_TOOLS),
   ("category_search", SEARCH_TOOLS)]

/-- The `DEFAULT_ENABLED_TOOLS` list of `src/tools.ts`. -/
def DEFAULT_ENABLED_TOOLS : List String :=
  ["list_azure_devops_projects",
   "get_azure_devops_identity_ids",
   "search_azure_devops_code",
   "get_azure_devops_repositories",
   "get_azure_devops_pull_request_by_id",
   "get_azure_devops_changes_by_commit",
   "get_azure_devops_content_by_objectid",
   "get_azure_devops_item_content_by_commit",
   "list_azure_devops_pull_request_threads",
   "list_azure_devops_pull_request_comments_by_thread"]

/- ### Pull-request status translation (`src/tools/repos.ts`)

`PullRequestStatus` is the numeric enum of the upstream client library
(`azure-devops-node-api/interfaces/GitInterfaces`):
NotSet = 0, Active = 1, Abandoned = 2, Completed = 3, All = 4. -/

inductive PullRequestStatus where
  | NotSet
  | Active
  | Abandoned
  | Completed
  | All
deriving DecidableEq

/-- The numeric value of each `PullRequestStatus` member (`.valueOf()`). -/
def PullRequestStatus.valueOf : PullRequestStatus → Nat
  | .NotSet => 0
  | .Active => 1
  | .Abandoned => 2
  | .Completed => 3
  | .All => 4

/-- Model of `pullRequestStatusStringToInt` of `src/tools/repos.ts`:
a `switch` over the five tokens, throwing on any other input. -/
def pullRequestStatusStringToInt (status : String) : Except String Nat :=
  if status = "abandoned" then Except.ok PullRequestStatus.Abandoned.valueOf
  else if status = "active" then Except.ok PullRequestStatus.Active.valueOf
  else if status = "all" then Except.ok PullRequestStatus.All.valueOf
  else if status = "completed" then Except.ok PullRequestStatus.Completed.valueOf
  else if status = "notSet" then Except.ok PullRequestStatus.NotSet.valueOf
  else Except.error ("Unknown pull request status: " ++ status)

/- ### Pagination slicing

Model of the `sorted.slice(skip, skip + top)` step used by the
`get_azure_devops_repositories` and thread/comment listing handlers
(for non-negative `skip` and `top`, JS `slice(skip, skip + top)`
returns the elements at offsets `[skip, skip + top)`, clamped). -/

/-- Model of `xs.slice(skip, skip + top)` for non-negative arguments. -/
def sliceSkipTop {α : Type} (xs : List α) (skip top : Nat) : List α :=
  (xs.drop skip).take top

/- ### Branch listing (`branchesFilterOutIrrelevantProperties`) -/

/-- Upstream `GitRef`: only the fields the embedded code reads. -/
structure GitRef where
  name : Option String
  objectId : Option String
deriving DecidableEq

/-- Model of `branch.name ? [branch.name] : []` (JS truthiness: an absent or
empty name contributes nothing). -/
def refNameList (r : GitRef) : List String :=
  match r.name with
  | some n => if n = "" then [] else [n]
  | none => []

/-- Lexicographic comparison of character lists by code point, the model of
the string ordering produced by `localeCompare` (per the spec's
"lexicographically"); structural, so it reduces in the kernel. -/
def lexLe : List Char → List Char → Bool
  | [], _ => true
  | _ :: _, [] => false
  | a :: as, b :: bs =>
    if a.toNat < b.toNat then true
    else if b.toNat < a.toNat then false
    else lexLe as bs

/-- Descending comparison used to model `sort((a, b) => b.localeCompare(a))`. -/
def descGe (a b : String) : Prop := lexLe b.data a.data = true

instance : DecidableRel descGe :=
  fun a b => inferInstanceAs (Decidable (lexLe b.data a.data = true))

/-- Model of `branchesFilterOutIrrelevantProperties` of `src/tools/repos.ts`:
keep present names, keep only refs under `refs/heads/`, strip that prefixed
namespace (the `replace` hits the leading occurrence, so it drops the first
11 characters of a string that starts with it), sort descending, take `top`. -/
def branchesFilterOutIrrelevantProperties (branches : List GitRef) (top : Nat) : List String :=
  ((((branches.map refNameList).flatten.filter
      (fun b => strStarts b "refs/heads/")).map
        (fun b => strDrop b 11)).insertionSort descGe).take top

/- ### DTO projections (`src/tools/repos.ts`)

Upstream entity structures carry the fields the projections read plus a
representative extra field (`url`) that every projection drops; dates are
modelled as strings. -/

structure TeamProjectReference where
  id : Option String
  name : Option String
  description : Option String
  url : Option String
deriving DecidableEq

structure ProjectResult where
  id : Option String
  description : Option String
  name : Option String
deriving DecidableEq

/-- Model of `toProjectResult`. -/
def toProjectResult (projectRef : TeamProjectReference) : ProjectResult :=
  { id := projectRef.id
    description := projectRef.description
    name := projectRef.name }

structure GitRepository where
  id : Option String
  defaultBranch : Option String
  name : Option String
  isFork : Option Bool
  project : Option TeamProjectReference
  url : Option String
deriving DecidableEq

structure RepositoryResult where
  id : Option String
  defaultBranch : Option String
  name : Option String
  isFork : Option Bool
  project : Option ProjectResult
deriving DecidableEq

/-- Model of `toRepositoryResult` (`repo.project && toProjectResult(...)`). -/
def toRepositoryResult (repo : GitRepository) : RepositoryResult :=
  { id := repo.id
    defaultBranch := repo.defaultBranch
    name := repo.name
    isFork := repo.isFork
    project := repo.project.map toProjectResult }

structure IdentityRef where
  id : Option String
  displayName : Option String
  uniqueName : Option String
  url : Option String
deriving DecidableEq

structure IdentityResult where
  id : Option String
  displayName : Option String
  uniqueName : Option String
deriving DecidableEq

/-- Model of `toIdentityResult`. -/
def toIdentityResult (identityRef : IdentityRef) : IdentityResult :=
  { id := identityRef.id
    displayName := identityRef.displayName
    uniqueName := identityRef.uniqueName }

structure IdentityRefWithVote where
  id : Option String
  displayName : Option String
  uniqueName : Option String
  vote : Option Int
  hasDeclined : Option Bool
  isRequired : Option Bool
  url : Option String
deriving DecidableEq

structure IdentityWithVoteResult where
  id : Option String
  displayName : Option String
  uniqueName : Option String
  vote : Option Int
  hasDeclined : Option Bool
  isRequired : Option Bool
deriving DecidableEq

/-- Model of `toIdentityWithVoteResult`. -/
def toIdentityWithVoteResult (identityRef : IdentityRefWithVote) : IdentityWithVoteResult :=
  { id := identityRef.id
    displayName := identityRef.displayName
    uniqueName := identityRef.uniqueName
    vote := identityRef.vote
    hasDeclined := identityRef.hasDeclined
    isRequired := identityRef.isRequired }

structure GitUserDate where
  email : Option String
  date : Option String
  name : Option String
deriving DecidableEq

structure GitUserDateResult where
  email : Option String
  date : Option String
deriving DecidableEq

/-- Model of `toGitUserDateResult`. -/
def toGitUserDateResult (user : GitUserDate) : GitUserDateResult :=
  { email := user.email
    date := user.date }

structure GitCommitRef where
  commitId : Option String
  comment : Option String
  commentTruncated : Option Bool
  author : Option GitUserDate
  committer : Option GitUserDate
  url : Option String
deriving DecidableEq

structure GitCommitResult where
  commitId : Option String
  comment : Option String
  commentTruncated : Option Bool
  author : Option GitUserDateResult
  committer : Option GitUserDateResult
deriving DecidableEq

/-- Model of `toGitCommitResult`. -/
def toGitCommitResult (commit : GitCommitRef) : GitCommitResult :=
  { commitId := commit.commitId
    comment := commit.comment
    commentTruncated := commit.commentTruncated
    author := commit.author.map toGitUserDateResult
    committer := commit.committer.map toGitUserDateResult }

structure GitItem where
  gitObjectType : Option Nat
  objectId : Option String
  originalObjectId : Option String
  isFolder : Option Bool
  isSymLink : Option Bool
  path : Option String
  url : Option String
deriving DecidableEq

structure GitItemResult where
  gitObjectType : Option Nat
  objectId : Option String
  originalObjectId : Option String
  isFolder : Option Bool
  isSymLink : Option Bool
  path : Option String
deriving DecidableEq

/-- Model of `toGitItemResult`. -/
def toGitItemResult (item : GitItem) : GitItemResult :=
  { gitObjectType := item.gitObjectType
    objectId := item.objectId
    originalObjectId := item.originalObjectId
    isFolder := item.isFolder
    isSymLink := item.isSymLink
    path := item.path }

/-- The reverse mapping of the upstream numeric enum
`VersionControlChangeType` (None = 0, Add = 1, Edit = 2, Encoding = 4,
Rename = 8, Delete = 16, Undelete = 32, Branch = 64, Merge = 128,
Lock = 256, Rollback = 512, SourceRename = 1024, TargetRename = 2048,
Property = 4096, All = 8191); `VersionControlChangeType[n]` is the member
name for a declared value and `undefined` otherwise. -/
def versionControlChangeTypeName (n : Nat) : Option String :=
  if n = 0 then some "None"
  else if n = 1 then some "Add"
  else if n = 2 then some "Edit"
  else if n = 4 then some "Encoding"
  else if n = 8 then some "Rename"
  else if n = 16 then some "Delete"
  else if n = 32 then some "Undelete"
  else if n = 64 then some "Branch"
  else if n = 128 then some "Merge"
  else if n = 256 then some "Lock"
  else if n = 512 then some "Rollback"
  else if n = 1024 then some "SourceRename"
  else if n = 2048 then some "TargetRename"
  else if n = 4096 then some "Property"
  else if n = 8191 then some "All"
  else none

structure GitChange where
  changeId : Option Nat
  originalPath : Option String
  changeType : Option Nat
  item : Option GitItem
  url : Option String
deriving DecidableEq

structure GitChangeResult where
  changeId : Option Nat
  originalPath : Option String
  changeType : Option String
  item : Option GitItemResult
deriving DecidableEq

/-- Model of `toGitChangeResult`: the `changeType` field is
`change.changeType ? VersionControlChangeType[change.changeType] : undefined`,
so an absent change type — or the falsy numeric code 0 — projects to
`undefined`, and any other code to the reverse enum lookup. -/
def toGitChangeResult (change : GitChange) : GitChangeResult :=
  { changeId := change.changeId
    originalPath := change.originalPath
    changeType :=
      match change.changeType with
      | some code => if code = 0 then none else versionControlChangeTypeName code
      | none => none
    item := change.item.map toGitItemResult }

structure GitCommitChanges where
  changes : Option (List GitChange)
deriving DecidableEq

structure GitCommitChangesResult where
  changes : Option (List GitChangeResult)
deriving DecidableEq

/-- Model of `toGitCommitChangesResult`. -/
def toGitCommitChangesResult (changes : GitCommitChanges) : GitCommitChangesResult :=
  { changes := changes.changes.map (fun cs => cs.map toGitChangeResult) }

structure GitCommitDiffs where
  changes : Option (List GitChange)
  baseCommit : Option String
  commonCommit : Option String
  targetCommit : Option String
  allChangesIncluded : Option Bool
deriving DecidableEq

structure GitCommitDiffsResult where
  changes : Option (List GitChangeResult)
  baseCommit : Option String
  commonCommit : Option String
  targetCommit : Option String
  allChangesIncluded : Option Bool
deriving DecidableEq

/-- Model of `toGitCommitDiffsResult`. -/
def toGitCommitDiffsResult (commitDiffs : GitCommitDiffs) : GitCommitDiffsResult :=
  { changes := commitDiffs.changes.map (fun cs => cs.map toGitChangeResult)
    baseCommit := commitDiffs.baseCommit
    commonCommit := commitDiffs.commonCommit
    targetCommit := commitDiffs.targetCommit
    allChangesIncluded := commitDiffs.allChangesIncluded }

structure GitPullRequest where
  creationDate : Option String
  closedDate : Option String
  description : Option String
  pullRequestId : Option Nat
  sourceRefName : Option String
  targetRefName : Option String
  status : Option Nat
  title : Option String
  workItemRefs : Option (List String)
  isDraft : Option Bool
  closedBy : Option IdentityRef
  createdBy : Option IdentityRef
  reviewers : Option (List IdentityRefWithVote)
  commits : Option (List GitCommitRef)
  url : Option String
deriving DecidableEq

structure PullRequestResult where
  creationDate : Option String
  closedDate : Option String
  description : Option String
  pullRequestId : Option Nat
  sourceRefName : Option String
  targetRefName : Option String
  status : Option Nat
  title : Option String
  workItemRefs : Option (List String)
  isDraft : Option Bool
  closedBy : Option IdentityResult
  createdBy : Option IdentityResult
  reviewers : Option (List IdentityWithVoteResult)
  commits : Option (List GitCommitResult)
  pullRequestChanges : Option GitCommitDiffsResult
deriving DecidableEq

/-- Model of `toPullRequestResult`: the object literal assigns neither
`isDraft` nor `pullRequestChanges`, so both start out absent. -/
def toPullRequestResult (pr : GitPullRequest) : PullRequestResult :=
  { creationDate := pr.creationDate
    closedDate := pr.closedDate
    description := pr.description
    pullRequestId := pr.pullRequestId
    sourceRefName := pr.sourceRefName
    targetRefName := pr.targetRefName
    status := pr.status
    title := pr.title
    workItemRefs := pr.workItemRefs
    isDraft := none
    closedBy := pr.closedBy.map toIdentityResult
    createdBy := pr.createdBy.map toIdentityResult
    reviewers := pr.reviewers.map (fun rs => rs.map toIdentityWithVoteResult)
    commits := pr.commits.map (fun cs => cs.map toGitCommitResult)
    pullRequestChanges := none }

/- ### Tool result envelope and handlers -/

/-- The uniform result envelope: a list of text content blocks plus the error
flag (`isError` is absent, i.e. `false`, on success paths). -/
structure ToolResult where
  content : List String
  isError : Bool
deriving DecidableEq

/-- Model of `(error as Error).message || fallback`: an empty message is falsy
and is replaced by the handler's fallback text. -/
def errMessageOr (message fallback : String) : String :=
  if message = "" then fallback else message

/-- Stand-in for `JSON.stringify` on a repository list (the serializer is an
external collaborator; no claim inspects the success text). -/
def serializeRepositories (repos : List RepositoryResult) : String :=
  String.intercalate ";" (repos.map (fun r => r.name.getD "null"))

/-- Stand-in for `JSON.stringify` on a pull-request result (no claim inspects
the success text). -/
def serializePullRequestResult (pr : PullRequestResult) : String :=
  "pullRequestId=" ++ (match pr.pullRequestId with
    | some n => toString n
    | none => "null") ++ ";title=" ++ pr.title.getD "null"

/-- Stand-in for `JSON.stringify` on a `GitRef` (no claim inspects it). -/
def serializeGitRef (branch : GitRef) : String :=
  "name=" ++ branch.name.getD "null" ++ ";objectId=" ++ branch.objectId.getD "null"

/-- The "Repository ... not found ..." message of `getRepositoriesResult`
(a template literal renders an absent filter as the text `undefined`). -/
def repositoryNotFoundMessage (repositoryNameOrId : Option String) (project : String) : String :=
  "Repository " ++ repositoryNameOrId.getD "undefined" ++ " not found in project " ++ project

/-- Model of the filter predicate of `getRepositoriesResult`:
`repo.name?.toLowerCase().includes(filter) || repo.id === filter`. -/
def repoMatchesFilter (f : String) (repo : GitRepository) : Bool :=
  (match repo.name with
   | some n => listContainsSub (strToLower n).data f.data
   | none => false)
  || decide (repo.id = some f)

/-- Model of `getRepositoriesResult` of `src/tools/repos.ts`, with the
upstream `getRepositories` response passed in (possibly `undefined`): lower-case
the filter, filter the repositories when the filter is truthy (a present,
non-empty string), and throw when nothing is left — even for this list query. -/
def getRepositoriesResult (repositories : Option (List GitRepository))
    (project : String) (repositoryNameOrId : Option String) :
    Except String (List RepositoryResult) :=
  let filtered :=
    match repositoryNameOrId.map strToLower with
    | some f =>
      if f = "" then repositories
      else repositories.map (fun rs : List GitRepository => rs.filter (repoMatchesFilter f))
    | none => repositories
  match filtered with
  | none => Except.error (repositoryNotFoundMessage repositoryNameOrId project)
  | some repos =>
    if repos.isEmpty then Except.error (repositoryNotFoundMessage repositoryNameOrId project)
    else Except.ok (repos.map toRepositoryResult)

/-- Ascending name comparison modelling the repository sort
`(a, b) => a.name?.localeCompare(b.name ?? "") ?? 0` (an absent name is
compared as the empty string; `localeCompare` is modelled as the
lexicographic string order). -/
def repoNameLe (a b : RepositoryResult) : Prop :=
  lexLe (a.name.getD "").data (b.name.getD "").data = true

instance : DecidableRel repoNameLe :=
  fun a b =>
    inferInstanceAs (Decidable (lexLe (a.name.getD "").data (b.name.getD "").data = true))

/-- Model of the `get_azure_devops_repositories` handler: fetch, sort by name
ascending, slice `[skip, skip + top)`, serialize; a thrown error is caught and
rendered as an error-flagged envelope. -/
def getRepositoriesHandler (repositories : Option (List GitRepository))
    (project : String) (top skip : Nat) (repositoryNameOrId : Option String) : ToolResult :=
  match getRepositoriesResult repositories project repositoryNameOrId with
  | Except.ok reposResult =>
    { content := [serializeRepositories
        (sliceSkipTop (reposResult.insertionSort repoNameLe) skip top)]
      isError := false }
  | Except.error e =>
    { content := [errMessageOr e "Failed to get repositories."], isError := true }

/-- Model of the `repo_get_branch_by_name` handler: find the ref named
`refs/heads/<branchName>`; when it is absent the handler returns a plain
"not found" text without setting `isError`. -/
def getBranchByNameHandler (branches : Option (List GitRef))
    (repositoryId branchName : String) : ToolResult :=
  match (branches.getD []).find?
      (fun b => decide (b.name = some ("refs/heads/" ++ branchName))) with
  | none =>
    { content := ["Branch " ++ branchName ++ " not found in repository " ++ repositoryId]
      isError := false }
  | some branch =>
    { content := [serializeGitRef branch], isError := false }

/- ### Composite pull-request fetch (`getPullRequestResult` and its handler)

The three upstream calls of one invocation are modelled by their outcomes:
each either throws (`Except.error`) or returns a possibly-absent value. -/

structure GitApiOutcomes where
  pullRequest : Except String (Option GitPullRequest)
  pullRequestCommits : Except String (Option (List GitCommitRef))
  commitDiffs : Except String (Option GitCommitDiffs)

/-- Model of `getPullRequestResult` of `src/tools/repos.ts`: sequential
upstream calls; a missing pull request throws; the commit list is always
projected (absent list becomes `[]`); the commit-diff call happens only when
the commit list is non-empty, and its result (possibly `undefined`) is stored
in `pullRequestChanges`.  Any upstream failure aborts the whole composite. -/
def getPullRequestResult (api : GitApiOutcomes) : Except String PullRequestResult := do
  let pullRequest ← api.pullRequest
  match pullRequest with
  | none => Except.error "Pull request not found."
  | some pr =>
    let prResult := toPullRequestResult pr
    let commits ← api.pullRequestCommits
    let prResult := { prResult with
      commits := some (match commits with
        | some cs => cs.map toGitCommitResult
        | none => []) }
    match commits with
    | some cs =>
      if cs.length ≠ 0 then do
        let diffs ← api.commitDiffs
        pure { prResult with pullRequestChanges := diffs.map toGitCommitDiffsResult }
      else
        pure prResult
    | none => pure prResult

/-- Model of the `get_azure_devops_pull_request_by_id` handler: the composite
fetch inside a `try`/`catch`; a caught error becomes a single error-flagged
text block. -/
def getPullRequestByIdHandler (api : GitApiOutcomes) : ToolResult :=
  match getPullRequestResult api with
  | Except.ok prRes =>
    { content := [serializePullRequestResult prRes], isError := false }
  | Except.error e =>
    { content := [errMessageOr e "Failed to get pull request."], isError := true }

/- ### Sample inputs used by the concrete evaluations -/

/-- A sample upstream repository record. -/
def sampleRepository : GitRepository :=
  { id := some "r1"
    defaultBranch := some "refs/heads/main"
    name := some "Alpha"
    isFork := some false
    project := none
    url := none }

/-- A pull request with every optional field absent. -/
def emptyPullRequest : GitPullRequest :=
  { creationDate := none, closedDate := none, description := none
    pullRequestId := none, sourceRefName := none, targetRefName := none
    status := none, title := none, workItemRefs := none, isDraft := none
    closedBy := none, createdBy := none, reviewers := none, commits := none
    url := none }

/-- An invocation environment in which the pull request is found but the
commit-list sub-fetch throws. -/
def sampleFailingApi : GitApiOutcomes :=
  { pullRequest := Except.ok (some emptyPullRequest)
    pullRequestCommits := Except.error "getCommits failed"
    commitDiffs := Except.ok none }

/-- A change whose numeric change-type code is 2 (`Edit`). -/
def sampleEditChange : GitChange :=
  { changeId := none, originalPath := none, changeType := some 2, item := none, url := none }

/-- A change whose numeric change-type code is 0 (`None`). -/
def sampleZeroChange : GitChange :=
  { changeId := none, originalPath := none, changeType := some 0, item := none, url := none }

/- ### Infrastructure lemmas -/

/-- `lexLe` is total. -/
theorem lexLe_total : ∀ as bs : List Char, lexLe as bs = true ∨ lexLe bs as = true := by
  intro as
  induction as with
  | nil => intro bs; left; cases bs <;> rfl
  | cons a as ih =>
    intro bs
    cases bs with
    | nil => right; rfl
    | cons b bs =>
      by_cases h1 : a.toNat < b.toNat
      · left; simp [lexLe, h1]
      · by_cases h2 : b.toNat < a.toNat
        · right; simp [lexLe, h2]
        · simpa [lexLe, h1, h2] using ih bs

/-- `lexLe` is transitive. -/
theorem lexLe_trans :
    ∀ as bs cs : List Char, lexLe as bs = true → lexLe bs cs = true → lexLe as cs = true := by
  intro as
  induction as with
  | nil => intro bs cs _ _; cases cs <;> simp [lexLe]
  | cons a as ih =>
    intro bs cs hab hbc
    cases bs with
    | nil => simp [lexLe] at hab
    | cons b bs =>
      cases cs with
      | nil => simp [lexLe] at hbc
      | cons c cs =>
        simp only [lexLe] at hab hbc ⊢
        split_ifs at hab hbc ⊢ <;>
          first
            | rfl
            | omega
            | (exact ih bs cs hab hbc)

instance : IsTotal String descGe :=
  ⟨fun a b => lexLe_total b.data a.data⟩

instance : IsTrans String descGe :=
  ⟨fun a b c hab hbc => lexLe_trans c.data b.data a.data hbc hab⟩

/-- Membership in a resolved token. -/
theorem mem_resolveToken_iff (cats : List (String × List String)) (tok t : String) :
    t ∈ resolveToken cats tok ↔
      ((lookupCategory cats tok = none ∧ t = tok)
        ∨ ∃ m, lookupCategory cats tok = some m ∧ t ∈ m) := by
  unfold resolveToken
  cases h : lookupCategory cats tok <;> simp [h]

/-- The deletion list of the gate has exactly the members of the spec-side
union: defaults, literally-named tokens, and members of named categories. -/
theorem mem_enableList_iff (cats : List (String × List String))
    (defaults : List String) (s t : String) :
    t ∈ enableList cats defaults s ↔ t ∈ specEnabledUnion cats defaults s := by
  unfold enableList specEnabledUnion literalToolTokens categoryTokenMembers
  simp only [List.mem_append, List.mem_flatten, List.mem_map, List.mem_filter,
    List.mem_filterMap, Option.isNone_iff_eq_none]
  constructor
  · rintro (hd | ⟨l, ⟨tok, htok, rfl⟩, ht⟩)
    · exact Or.inl (Or.inl hd)
    · rcases (mem_resolveToken_iff cats tok t).mp ht with ⟨hnone, rfl⟩ | ⟨m, hm, htm⟩
      · exact Or.inl (Or.inr ⟨htok, by simp [hnone]⟩)
      · exact Or.inr ⟨m, ⟨tok, htok, hm⟩, htm⟩
  · rintro ((hd | ⟨htok, hnone⟩) | ⟨m, ⟨tok, htok, hm⟩, htm⟩)
    · exact Or.inl hd
    · refine Or.inr ⟨resolveToken cats t, ⟨t, htok, rfl⟩, ?_⟩
      exact (mem_resolveToken_iff cats t t).mpr (Or.inl ⟨by simpa using hnone, rfl⟩)
    · refine Or.inr ⟨resolveToken cats tok, ⟨tok, htok, rfl⟩, ?_⟩
      exact (mem_resolveToken_iff cats tok t).mpr (Or.inr ⟨m, hm, htm⟩)

/-- Being outside the disabled set means being outside the catalog or in the
deletion list. -/
theorem not_mem_disabledSet_iff (cats : List (String × List String))
    (defaults : List String) (s t : String) :
    t ∉ disabledSet cats defaults s ↔
      (t ∉ allCatalogTools cats ∨ t ∈ enableList cats defaults s) := by
  unfold disabledSet
  simp only [List.mem_filter, decide_eq_true_eq]
  by_cases hall : t ∈ allCatalogTools cats <;>
    by_cases hen : t ∈ enableList cats defaults s <;> simp [hall, hen]

/-- Registration is catalog membership plus membership in the deletion list. -/
theorem isRegistered_iff (cats : List (String × List String))
    (defaults : List String) (s t : String) :
    isRegistered cats defaults s t ↔
      t ∈ allCatalogTools cats ∧ t ∈ enableList cats defaults s := by
  unfold isRegistered
  rw [not_mem_disabledSet_iff]
  constructor
  · rintro ⟨hall, hno | hen⟩
    · exact absurd hall hno
    · exact ⟨hall, hen⟩
  · rintro ⟨hall, hen⟩
    exact ⟨hall, Or.inr hen⟩

/-- The branch pipeline before sorting equals its spec-side description. -/
theorem branchPipeline_eq_filterMap (bs : List GitRef) :
    (((bs.map refNameList).flatten.filter
        (fun b => strStarts b "refs/heads/")).map (fun b => strDrop b 11))
      = bs.filterMap (fun r =>
          match r.name with
          | some n => if strStarts n "refs/heads/" then some (strDrop n 11) else none
          | none => none) := by
  induction bs with
  | nil => rfl
  | cons r bs ih =>
    rw [List.map_cons, List.flatten_cons, List.filter_append, List.map_append, ih,
      List.filterMap_cons]
    cases hn : r.name with
    | none => simp [refNameList, hn]
    | some n =>
      by_cases he : n = ""
      · subst he
        simp [refNameList, hn, show strStarts "" "refs/heads/" = false from rfl]
      · cases hs : strStarts n "refs/heads/" with
        | true => simp [refNameList, hn, he, hs]
        | false => simp [refNameList, hn, he, hs]

/- ### Claim theorems -/

/-- C1: for every category table, default-enabled list and override string,
a tool name is registered by `configureAllTools` exactly when it is a catalog
tool belonging to the union of the static default-enabled list, the tools
named literally in the override string, and the member tools of every
category named in the override string; and every default-enabled tool name is
outside the computed disabled set regardless of the override string. -/
theorem claim1_gate_allowlist_characterization
    (cats : List (String × List String)) (defaults : List String) (s t : String) :
    (isRegistered cats defaults s t ↔
      t ∈ allCatalogTools cats ∧ t ∈ specEnabledUnion cats defaults s)
    ∧ (t ∈ defaults → t ∉ disabledSet cats defaults s) := by
  constructor
  · rw [isRegistered_iff, mem_enableList_iff]
  · intro hd
    rw [not_mem_disabledSet_iff]
    refine Or.inr ?_
    unfold enableList
    exact List.mem_append_left _ hd

/-- Closed instance of C1, discharging its hypothesis: the default-enabled
tool `list_azure_devops_projects` is outside the disabled set even when the
override string names an unrelated category. -/
theorem claim1_gate_allowlist_characterization_wit :
    "list_azure_devops_projects" ∈ DEFAULT_ENABLED_TOOLS
    ∧ "list_azure_devops_projects"
        ∉ disabledSet TOOLS_CATEGORY_MAP DEFAULT_ENABLED_TOOLS "category_wiki" :=
  ⟨by decide,
    (claim1_gate_allowlist_characterization TOOLS_CATEGORY_MAP DEFAULT_ENABLED_TOOLS
      "category_wiki" "list_azure_devops_projects").2 (by decide)⟩

/-- C2 fails on the code: with the override string
`"category_repo,get_azure_devops_pull_request_by_id"` the tool
`search_azure_devops_code` — a member of `category_search`, not of
`category_repo` — is still registered, because it is in the static
default-enabled list. -/
theorem claim2_override_repo_counterexample :
    isRegistered TOOLS_CATEGORY_MAP DEFAULT_ENABLED_TOOLS
      "category_repo,get_azure_devops_pull_request_by_id" "search_azure_devops_code"
    ∧ "search_azure_devops_code" ∈ SEARCH_TOOLS
    ∧ "search_azure_devops_code" ∉ REPO_TOOLS := by
  refine ⟨by decide, by decide, by decide⟩

/-- C2 amended: with the override string
`"category_repo,get_azure_devops_pull_request_by_id"`, every tool in the repo
category (including the literally-named one) is enabled, and every tool of any
other category is disabled unless it is in the static default-enabled list. -/
theorem claim2_override_repo_amended :
    (∀ t, t ∈ REPO_TOOLS →
      isRegistered TOOLS_CATEGORY_MAP DEFAULT_ENABLED_TOOLS
        "category_repo,get_azure_devops_pull_request_by_id" t)
    ∧ (∀ t, t ∈ allCatalogTools TOOLS_CATEGORY_MAP → t ∉ REPO_TOOLS →
        t ∉ DEFAULT_ENABLED_TOOLS →
        ¬ isRegistered TOOLS_CATEGORY_MAP DEFAULT_ENABLED_TOOLS
            "category_repo,get_azure_devops_pull_request_by_id" t) := by
  refine ⟨by decide, by decide⟩

/-- Closed instance of C2 amended, discharging its hypotheses: the repo tool
`repo_create_pull_request` (not default-enabled) is registered under the
override, and the search tool `search_azure_devops_wiki` is not. -/
theorem claim2_override_repo_amended_wit :
    isRegistered TOOLS_CATEGORY_MAP DEFAULT_ENABLED_TOOLS
      "category_repo,get_azure_devops_pull_request_by_id" "repo_create_pull_request"
    ∧ ¬ isRegistered TOOLS_CATEGORY_MAP DEFAULT_ENABLED_TOOLS
        "category_repo,get_azure_devops_pull_request_by_id" "search_azure_devops_wiki" :=
  ⟨claim2_override_repo_amended.1 "repo_create_pull_request" (by decide),
   claim2_override_repo_amended.2 "search_azure_devops_wiki" (by decide) (by decide) (by decide)⟩

/-- C3 fails on the code: the translator maps `"active"` to the numeric code 1
(the upstream enum's `Active` value), not to 3 (which is `Completed`). -/
theorem claim3_status_translation_counterexample :
    pullRequestStatusStringToInt "active" ≠ Except.ok 3
    ∧ pullRequestStatusStringToInt "active" = Except.ok 1 := by
  constructor
  · intro h
    have h1 : pullRequestStatusStringToInt "active" = Except.ok 1 := rfl
    rw [h1] at h
    injection h with h2
    exact absurd h2 (by decide)
  · rfl

/-- C3 amended: the translator succeeds exactly on the five tokens, returning
the upstream enum's numeric codes (`"active"` maps to 1), and throws the
explicit "Unknown pull request status" error on every other token. -/
theorem claim3_status_translation_amended :
    pullRequestStatusStringToInt "abandoned" = Except.ok 2
    ∧ pullRequestStatusStringToInt "active" = Except.ok 1
    ∧ pullRequestStatusStringToInt "all" = Except.ok 4
    ∧ pullRequestStatusStringToInt "completed" = Except.ok 3
    ∧ pullRequestStatusStringToInt "notSet" = Except.ok 0
    ∧ ∀ status,
        status ∉ (["abandoned", "active", "all", "completed", "notSet"] : List String) →
        pullRequestStatusStringToInt status
          = Except.error ("Unknown pull request status: " ++ status) := by
  refine ⟨rfl, rfl, rfl, rfl, rfl, ?_⟩
  intro status h
  simp only [List.mem_cons, List.not_mem_nil, or_false, not_or] at h
  obtain ⟨h1, h2, h3, h4, h5⟩ := h
  simp [pullRequestStatusStringToInt, h1, h2, h3, h4, h5]

/-- Closed instance of C3 amended, discharging its hypothesis at the token
`"merged"`. -/
theorem claim3_status_translation_amended_wit :
    "merged" ∉ (["abandoned", "active", "all", "completed", "notSet"] : List String)
    ∧ pullRequestStatusStringToInt "merged"
        = Except.error "Unknown pull request status: merged" :=
  ⟨by decide, claim3_status_translation_amended.2.2.2.2.2 "merged" (by decide)⟩

/-- C6: for every catalog in which the empty string is neither a tool nor a
category name and the default-enabled list is part of the catalog, the empty
override string activates exactly the static default-enabled tools — the
single empty-string token produced by splitting is a no-op (and the gate is a
total function: it cannot throw). -/
theorem claim6_empty_override (cats : List (String × List String)) (defaults : List String)
    (hempty : "" ∉ allCatalogTools cats)
    (hcat : lookupCategory cats "" = none)
    (hdef : ∀ t ∈ defaults, t ∈ allCatalogTools cats) :
    ∀ t, isRegistered cats defaults "" t ↔ t ∈ defaults := by
  intro t
  rw [isRegistered_iff]
  have htoks : overrideTokens "" = [""] := rfl
  have henable : enableList cats defaults "" = defaults ++ [""] := by
    unfold enableList
    rw [htoks]
    simp [resolveToken, hcat]
  rw [henable]
  constructor
  · rintro ⟨hall, hen⟩
    rcases List.mem_append.mp hen with hd | hsingle
    · exact hd
    · rw [List.mem_singleton] at hsingle
      exact absurd (hsingle ▸ hall) hempty
  · intro hd
    exact ⟨hdef t hd, List.mem_append_left _ hd⟩

/-- Closed instance of C6, discharging its hypotheses on the concrete catalog:
with the empty override, `search_azure_devops_wiki` is registered exactly when
it is default-enabled (it is not). -/
theorem claim6_empty_override_wit :
    isRegistered TOOLS_CATEGORY_MAP DEFAULT_ENABLED_TOOLS "" "search_azure_devops_wiki"
      ↔ "search_azure_devops_wiki" ∈ DEFAULT_ENABLED_TOOLS :=
  claim6_empty_override TOOLS_CATEGORY_MAP DEFAULT_ENABLED_TOOLS
    (by decide) (by decide) (by decide) "search_azure_devops_wiki"

/-- C4: for every input sequence and non-negative `skip` and `top`, the slice
`xs.slice(skip, skip + top)` has the elements at offsets `[skip, skip + top)`
(its length is `min top (length - skip)` and its `i`-th element is the input's
`(skip + i)`-th); slicing a 250-item input with `top = 100` at `skip` 0, 100
and 200 concatenates back to the whole input, and `skip = 1000` yields the
empty sequence rather than an error. -/
theorem claim4_pagination_slice (xs : List Nat) (skip top : Nat) :
    (sliceSkipTop xs skip top).length = min top (xs.length - skip)
    ∧ (∀ i, i < top → (sliceSkipTop xs skip top)[i]? = xs[skip + i]?)
    ∧ (xs.length = 250 →
        sliceSkipTop xs 0 100 ++ sliceSkipTop xs 100 100 ++ sliceSkipTop xs 200 100 = xs
        ∧ sliceSkipTop xs 1000 100 = []) := by
  refine ⟨?_, ?_, ?_⟩
  · simp [sliceSkipTop]
  · intro i hi
    unfold sliceSkipTop
    rw [List.getElem?_take, if_pos hi, List.getElem?_drop]
  · intro h
    refine ⟨?_, ?_⟩
    · have e3 : xs.take 200 = xs.take 100 ++ (xs.drop 100).take 100 := by
        rw [show (200 : Nat) = 100 + 100 from rfl]
        exact List.take_add xs 100 100
      have e2 : xs.take 300 = xs.take 200 ++ (xs.drop 200).take 100 := by
        rw [show (300 : Nat) = 200 + 100 from rfl]
        exact List.take_add xs 200 100
      have e1 : xs.take 300 = xs := List.take_of_length_le (by omega)
      unfold sliceSkipTop
      rw [List.drop_zero, ← e3, ← e2]
      exact e1
    · have hd : xs.drop 1000 = [] := List.drop_eq_nil_of_le (by omega)
      unfold sliceSkipTop
      rw [hd]
      rfl

/-- Closed instance of C4, discharging its hypotheses on the 250-item input
`List.range 250`. -/
theorem claim4_pagination_slice_wit :
    (sliceSkipTop (List.range 250) 0 100)[5]? = (List.range 250)[0 + 5]?
    ∧ (sliceSkipTop (List.range 250) 0 100 ++ sliceSkipTop (List.range 250) 100 100
          ++ sliceSkipTop (List.range 250) 200 100 = List.range 250
        ∧ sliceSkipTop (List.range 250) 1000 100 = []) :=
  ⟨(claim4_pagination_slice (List.range 250) 0 100).2.1 5 (by decide),
   (claim4_pagination_slice (List.range 250) 0 100).2.2 (by simp)⟩

/-- C5 is the spec's mandated normalization, and the code diverges from it in
both directions: the list query `get_azure_devops_repositories` reports a
filtered-to-empty result as an error-flagged envelope (the thrown
"Repository ... not found" message), while the singular lookup
`repo_get_branch_by_name` reports an absent branch as a plain text envelope
without the error flag. -/
theorem claim5_not_found_divergence :
    getRepositoriesResult (some [sampleRepository]) "Proj" (some "zzz")
      = Except.error "Repository zzz not found in project Proj"
    ∧ getRepositoriesHandler (some [sampleRepository]) "Proj" 100 0 (some "zzz")
      = { content := ["Repository zzz not found in project Proj"], isError := true }
    ∧ getBranchByNameHandler (some [{ name := some "refs/heads/dev", objectId := none }])
        "RepoX" "main"
      = { content := ["Branch main not found in repository RepoX"], isError := false } :=
  ⟨rfl, rfl, rfl⟩

/-- C7: for every input ref list, the branch listing is the first `top`
elements of a descending-sorted list whose members are exactly (as a
multiset) the names of the refs under `refs/heads/` with that namespace
stripped; on the three sample refs with `top = 10` it yields
`["main", "feature/x"]` with the tag ref excluded. -/
theorem claim7_branch_listing :
    (∀ (branches : List GitRef) (top : Nat),
      ∃ l : List String,
        branchesFilterOutIrrelevantProperties branches top = l.take top
        ∧ l.Sorted descGe
        ∧ l.Perm (branches.filterMap (fun r =>
            match r.name with
            | some n => if strStarts n "refs/heads/" then some (strDrop n 11) else none
            | none => none)))
    ∧ branchesFilterOutIrrelevantProperties
        [{ name := some "refs/heads/main", objectId := none },
         { name := some "refs/heads/feature/x", objectId := none },
         { name := some "refs/tags/v1", objectId := none }] 10
      = ["main", "feature/x"] := by
  constructor
  · intro branches top
    refine ⟨(((branches.map refNameList).flatten.filter
          (fun b => strStarts b "refs/heads/")).map (fun b => strDrop b 11)).insertionSort descGe,
        rfl, List.sorted_insertionSort descGe _, ?_⟩
    rw [branchPipeline_eq_filterMap]
    exact List.perm_insertionSort descGe _
  · decide

/-- C8: whenever the pull request itself is found but a secondary fetch
(commit list, or commit diffs on a non-empty commit list) throws, the
`get_azure_devops_pull_request_by_id` handler returns the single
error-flagged envelope carrying the diagnostic message — never a
partially-populated success envelope. -/
theorem claim8_composite_pr_atomicity (api : GitApiOutcomes) (pr : GitPullRequest) (e : String)
    (hpr : api.pullRequest = Except.ok (some pr))
    (hfail : api.pullRequestCommits = Except.error e
      ∨ ∃ cs, api.pullRequestCommits = Except.ok (some cs) ∧ cs ≠ []
          ∧ api.commitDiffs = Except.error e) :
    getPullRequestByIdHandler api
      = { content := [errMessageOr e "Failed to get pull request."], isError := true } := by
  rcases hfail with hc | ⟨cs, hcs, hne, hd⟩
  · simp [getPullRequestByIdHandler, getPullRequestResult, hpr, hc,
      Bind.bind, Except.bind]
  · simp [getPullRequestByIdHandler, getPullRequestResult, hpr, hcs, hne, hd,
      Bind.bind, Except.bind, Functor.map, Except.map]

/-- Closed instance of C8, discharging its hypotheses on an environment whose
commit-list fetch throws. -/
theorem claim8_composite_pr_atomicity_wit :
    sampleFailingApi.pullRequest = Except.ok (some emptyPullRequest)
    ∧ getPullRequestByIdHandler sampleFailingApi
        = { content := ["getCommits failed"], isError := true } :=
  ⟨rfl,
    claim8_composite_pr_atomicity sampleFailingApi emptyPullRequest "getCommits failed"
      rfl (Or.inl rfl)⟩

/-- C9: `toGitChangeResult` renders a present numeric change-type code as the
upstream enum's symbolic name (code 2 projects to the literal string
`"Edit"`), and an absent change type projects to an absent field. -/
theorem claim9_change_type_projection (change : GitChange) :
    (change.changeType = some 2 → (toGitChangeResult change).changeType = some "Edit")
    ∧ (change.changeType = none → (toGitChangeResult change).changeType = none)
    ∧ (∀ code, change.changeType = some code → code ≠ 0 →
        (toGitChangeResult change).changeType = versionControlChangeTypeName code) := by
  refine ⟨?_, ?_, ?_⟩
  · intro h
    simp [toGitChangeResult, h, versionControlChangeTypeName]
  · intro h
    simp [toGitChangeResult, h]
  · intro code hc hnz
    simp [toGitChangeResult, hc, hnz]

/-- Closed instance of C9, discharging its hypotheses on a change whose code
is 2 and on one with no change type. -/
theorem claim9_change_type_projection_wit :
    (toGitChangeResult sampleEditChange).changeType = some "Edit"
    ∧ (toGitChangeResult { sampleEditChange with changeType := none }).changeType = none :=
  ⟨(claim9_change_type_projection sampleEditChange).1 rfl,
   (claim9_change_type_projection { sampleEditChange with changeType := none }).2.1 rfl⟩

/-- C10: a present change-type code equal to 0 (the `None` member) is falsy in
the projection's truthiness test, so it projects to an absent field, not to
the symbolic string `"None"`. -/
theorem claim10_change_type_zero (change : GitChange)
    (h : change.changeType = some 0) :
    (toGitChangeResult change).changeType = none
    ∧ (toGitChangeResult change).changeType ≠ some "None" := by
  constructor
  · simp [toGitChangeResult, h]
  · simp [toGitChangeResult, h]

/-- Closed instance of C10, discharging its hypothesis on a change whose code
is 0. -/
theorem claim10_change_type_zero_wit :
    (toGitChangeResult sampleZeroChange).changeType = none
    ∧ (toGitChangeResult sampleZeroChange).changeType ≠ some "None" :=
  claim10_change_type_zero sampleZeroChange rfl
